import Mathlib

/-!
# Style code generator: the structure types

A shallow embedding of `Telegram/SourceFiles/codegen/style/structure_types.h`
(namespace `codegen::style::structure`; the last component is a reserved word
here, so the development lives in `codegen.style`).

* C++ `int` is embedded as `Int`, `uchar` as `Nat`, `double` as `Float`,
  `std::string` and `QString` as `String`, `QStringList` and `QList<T>` as `List`.
  The value model performs no arithmetic on any of them; the arithmetic of
  `pxAdjust` is embedded over the rationals, as its section describes.
* `std::shared_ptr<DataBase>` is embedded as `Option DataBase`: `none` is the
  null pointer, and dereferencing it (what every accessor of `Value` does) is
  the failure `none` of the accessor.  The pointee is never written through by
  the operations embedded here, so it is held by value.
* A pointer result (`const data::fields *`) is an `Option`: `none` is `nullptr`.
-/

namespace codegen.style

/-- The C++ type int. -/
abbrev int := Int
/-- The C++ type uchar. -/
abbrev uchar := Nat
/-- The C++ type double. -/
abbrev double := Float
/-- The C++ type std::string. -/
abbrev std.string := String
/-- The enum Qt::Initialization of the Qt library, whose one enumerator is Qt::Uninitialized. -/
inductive Qt.Initialization
  | Uninitialized
  deriving DecidableEq, Repr

/-- List of names, like overview.document.bg (a QStringList). -/
abbrev FullName := List String

/-- The enum class TypeTag. -/
inductive TypeTag
  | Invalid
  | Int
  | Double
  | Pixels
  | String
  | Color
  | Point
  | Sprite
  | Size
  | Transition
  | Cursor
  | Align
  | Margins
  | Font
  | Struct
  deriving DecidableEq, Repr

/-- The struct Type: a tag and a name ("only for type == ClassType::Struct"). -/
structure Type_ where
  tag : TypeTag
  name : FullName
  deriving DecidableEq, Repr

/-- The conversion `explicit operator bool() const` of Type. -/
def Type_.operatorBool (t : Type_) : Bool :=
  t.tag != TypeTag.Invalid

/-- The free function `operator==(const Type &a, const Type &b)`. -/
def Type_.operatorEq (a b : Type_) : Bool :=
  (a.tag == b.tag) && (a.name == b.name)

/-- The free function `operator!=(const Type &a, const Type &b)`. -/
def Type_.operatorNe (a b : Type_) : Bool :=
  !(Type_.operatorEq a b)

namespace data

/-- The struct data::point. -/
structure point where
  x : int
  y : int
  deriving DecidableEq, Repr

/-- The struct data::sprite. -/
structure sprite where
  left : int
  top : int
  width : int
  height : int
  deriving DecidableEq, Repr

/-- The struct data::size. -/
structure size where
  width : int
  height : int
  deriving DecidableEq, Repr

/-- The struct data::color. -/
structure color where
  red : uchar
  green : uchar
  blue : uchar
  alpha : uchar
  deriving DecidableEq, Repr

/-- The struct data::margins. -/
structure margins where
  left : int
  top : int
  right : int
  bottom : int
  deriving DecidableEq, Repr

/-- The struct data::font (family, size, and a mask of Bold = 1, Italic = 2, Underline = 4). -/
structure font where
  family : std.string
  size : int
  flags : int
  deriving DecidableEq, Repr

/-- Value-initialisation `{}` of data::point. -/
def point.zero : point := ⟨0, 0⟩
/-- Value-initialisation `{}` of data::sprite. -/
def sprite.zero : sprite := ⟨0, 0, 0, 0⟩
/-- Value-initialisation `{}` of data::size. -/
def size.zero : size := ⟨0, 0⟩
/-- Value-initialisation `{}` of data::color. -/
def color.zero : color := ⟨0, 0, 0, 0⟩
/-- Value-initialisation `{}` of data::margins. -/
def margins.zero : margins := ⟨0, 0, 0, 0⟩
/-- Value-initialisation `{}` of data::font. -/
def font.zero : font := ⟨"", 0, 0⟩

/-- The enum class data::field::Status. -/
inductive field.Status
  | Uninitialized
  | Implicit
  | Explicit
  deriving DecidableEq, Repr

end data

mutual

/-- Modelled from the spec: the per-shape payload classes of `struct DataTypes`,
which the header only declares (the constructors TInt to TFields: each holds
one payload of its shape and overrides the one accessor of that shape).
`Base` is an object of the class Value::DataBase itself, as the header defines
it.  A term of this type is the dynamic class, with its member, of the object
behind `data_`. -/
inductive Value.DataBase
  | Base
  | TInt (value_ : int)
  | TDouble (value_ : double)
  | TString (value_ : std.string)
  | TPoint (value_ : data.point)
  | TSprite (value_ : data.sprite)
  | TSize (value_ : data.size)
  | TColor (value_ : data.color)
  | TMargins (value_ : data.margins)
  | TFont (value_ : data.font)
  | TFields (value_ : List data.field)

/-- The class Value: its private members type_, data_ and copyOf_. -/
inductive Value
  | mk (type_ : Type_) (data_ : Option Value.DataBase) (copyOf_ : FullName)

/-- The struct Variable. -/
inductive Variable
  | mk (name : FullName) (value : Value)

/-- The struct data::field (its member variable is spelt variable_, the plain word being reserved). -/
inductive data.field
  | mk (variable_ : Variable) (status : data.field.Status)

end

/-- The list type `data::fields`. -/
abbrev data.fields := List data.field

/-- The struct StructField. -/
structure StructField where
  name : FullName
  type : Type_
  deriving DecidableEq, Repr

/-- The struct Struct. -/
structure Struct where
  name : FullName
  fields : List StructField
  deriving DecidableEq, Repr

/-! ## The base class `Value::DataBase` and the payload classes -/

/-- The virtual `DataBase::Int() const`: the base returns 0, the int payload class its value. -/
def Value.DataBase.Int : Value.DataBase → int
  | .TInt value_ => value_
  | _ => 0

/-- The virtual `DataBase::Double() const`: the base returns 0., the double payload class its value. -/
def Value.DataBase.Double : Value.DataBase → double
  | .TDouble value_ => value_
  | _ => 0.0

/-- The virtual `DataBase::String() const`: the base returns std::string(). -/
def Value.DataBase.String : Value.DataBase → std.string
  | .TString value_ => value_
  | _ => ""

/-- The virtual `DataBase::Point() const`: the base returns `{}`. -/
def Value.DataBase.Point : Value.DataBase → data.point
  | .TPoint value_ => value_
  | _ => data.point.zero

/-- The virtual `DataBase::Sprite() const`: the base returns `{}`. -/
def Value.DataBase.Sprite : Value.DataBase → data.sprite
  | .TSprite value_ => value_
  | _ => data.sprite.zero

/-- The virtual `DataBase::Size() const`: the base returns `{}`. -/
def Value.DataBase.Size : Value.DataBase → data.size
  | .TSize value_ => value_
  | _ => data.size.zero

/-- The virtual `DataBase::Color() const`: the base returns `{}`. -/
def Value.DataBase.Color : Value.DataBase → data.color
  | .TColor value_ => value_
  | _ => data.color.zero

/-- The virtual `DataBase::Margins() const`: the base returns `{}`. -/
def Value.DataBase.Margins : Value.DataBase → data.margins
  | .TMargins value_ => value_
  | _ => data.margins.zero

/-- The virtual `DataBase::Font() const`: the base returns `{}`. -/
def Value.DataBase.Font : Value.DataBase → data.font
  | .TFont value_ => value_
  | _ => data.font.zero

/-- The virtual `DataBase::Fields()` (const and not): the base returns nullptr, the
field-list payload class the address of its list. -/
def Value.DataBase.Fields : Value.DataBase → Option data.fields
  | .TFields value_ => some value_
  | _ => none

/-! ## The class `Value` -/

/-- The member type_ of a Value. -/
def Value.type_ : Value → Type_
  | .mk t _ _ => t

/-- The member data_ of a Value. -/
def Value.data_ : Value → Option Value.DataBase
  | .mk _ d _ => d

/-- The member copyOf_ of a Value. -/
def Value.copyOf_ : Value → FullName
  | .mk _ _ c => c

/-- The method `Type type() const`. -/
def Value.type (v : Value) : Type_ := v.type_

/-- The method `int Int() const`, that is `data_->Int()`. -/
def Value.Int (v : Value) : Option int := v.data_.map Value.DataBase.Int

/-- The method `double Double() const`, that is `data_->Double()`. -/
def Value.Double (v : Value) : Option double := v.data_.map Value.DataBase.Double

/-- The method `std::string String() const`, that is `data_->String()`. -/
def Value.String (v : Value) : Option std.string := v.data_.map Value.DataBase.String

/-- The method `data::point Point() const`, that is `data_->Point()`. -/
def Value.Point (v : Value) : Option data.point := v.data_.map Value.DataBase.Point

/-- The method `data::sprite Sprite() const`, that is `data_->Sprite()`. -/
def Value.Sprite (v : Value) : Option data.sprite := v.data_.map Value.DataBase.Sprite

/-- The method `data::size Size() const`, that is `data_->Size()`. -/
def Value.Size (v : Value) : Option data.size := v.data_.map Value.DataBase.Size

/-- The method `data::color Color() const`, that is `data_->Color()`. -/
def Value.Color (v : Value) : Option data.color := v.data_.map Value.DataBase.Color

/-- The method `data::margins Margins() const`, that is `data_->Margins()`. -/
def Value.Margins (v : Value) : Option data.margins := v.data_.map Value.DataBase.Margins

/-- The method `data::font Font() const`, that is `data_->Font()`. -/
def Value.Font (v : Value) : Option data.font := v.data_.map Value.DataBase.Font

/-- The methods `Fields()` (const and not), that is `data_->Fields()`: the outer
option is the dereference of data_, the inner one the returned pointer. -/
def Value.Fields (v : Value) : Option (Option data.fields) := v.data_.map Value.DataBase.Fields

/-- The conversion `explicit operator bool() const` of Value. -/
def Value.operatorBool (v : Value) : Bool :=
  v.type_.tag != TypeTag.Invalid

/-- The method `const FullName &copyOf() const`. -/
def Value.copyOf (v : Value) : FullName := v.copyOf_

/-- The body of `Value::makeCopy` with the receiver threaded through: the first
component is `*this` once the call has returned, the second the returned Value.
`Value result(*this)` copies the three members (the payload pointer is
shared), then `result.copyOf_ = copyOf` overwrites the third. -/
def Value.makeCopyRun (self : Value) (copyOf : FullName) : Value × Value :=
  let result : Value := .mk self.type_ self.data_ self.copyOf_
  let result : Value := .mk result.type_ result.data_ copyOf
  (self, result)

/-- The method `Value makeCopy(const FullName &copyOf) const`: the returned Value. -/
def Value.makeCopy (self : Value) (copyOf : FullName) : Value :=
  (Value.makeCopyRun self copyOf).2

/-! ## The constructors of `Value`

The header declares them; their bodies are in `structure_types.cpp`, which is
not among the sources at hand. -/

/-- Modelled from the spec: the body of the constructor `Value()`, which is in
the absent structure_types.cpp.  "A default-constructed Value's type() tag is
Invalid"; it "carries no payload", and its accessors are total, so data_ is an
object of the base class. -/
def Value.new : Value :=
  .mk ⟨TypeTag.Invalid, []⟩ (some .Base) []

/-- Modelled from the spec: the body of the constructor `Value(data::point)`,
which is in the absent structure_types.cpp.  It "sets the tag to the matching
TypeTag and stores the record verbatim". -/
def Value.ofPoint (value : data.point) : Value :=
  .mk ⟨TypeTag.Point, []⟩ (some (.TPoint value)) []

/-- Modelled from the spec: the body of the constructor `Value(data::sprite)`,
which is in the absent structure_types.cpp (matching tag, record stored verbatim). -/
def Value.ofSprite (value : data.sprite) : Value :=
  .mk ⟨TypeTag.Sprite, []⟩ (some (.TSprite value)) []

/-- Modelled from the spec: the body of the constructor `Value(data::size)`,
which is in the absent structure_types.cpp (matching tag, record stored verbatim). -/
def Value.ofSize (value : data.size) : Value :=
  .mk ⟨TypeTag.Size, []⟩ (some (.TSize value)) []

/-- Modelled from the spec: the body of the constructor `Value(data::color)`,
which is in the absent structure_types.cpp (matching tag, record stored verbatim). -/
def Value.ofColor (value : data.color) : Value :=
  .mk ⟨TypeTag.Color, []⟩ (some (.TColor value)) []

/-- Modelled from the spec: the body of the constructor `Value(data::margins)`,
which is in the absent structure_types.cpp (matching tag, record stored verbatim). -/
def Value.ofMargins (value : data.margins) : Value :=
  .mk ⟨TypeTag.Margins, []⟩ (some (.TMargins value)) []

/-- Modelled from the spec: the body of the constructor `Value(data::font)`,
which is in the absent structure_types.cpp (matching tag, record stored verbatim). -/
def Value.ofFont (value : data.font) : Value :=
  .mk ⟨TypeTag.Font, []⟩ (some (.TFont value)) []

/-- Modelled from the spec: the body of the constructor
`Value(const FullName &type, data::fields value)`, which is in the absent
structure_types.cpp.  It "produces a Struct-tagged value whose Type.name is the
given name", holding the field list as supplied. -/
def Value.ofFields (type : FullName) (value : data.fields) : Value :=
  .mk ⟨TypeTag.Struct, type⟩ (some (.TFields value)) []

/-- Modelled from the spec: the body of the constructor `Value(TypeTag type, double value)`
("can be only double"), which is in the absent structure_types.cpp.  The value
carries the given tag and a double payload; "the type model does not itself
reject a mismatched tag/payload pairing". -/
def Value.ofDouble (type : TypeTag) (value : double) : Value :=
  .mk ⟨type, []⟩ (some (.TDouble value)) []

/-- Modelled from the spec: the body of the constructor `Value(TypeTag type, int value)`
("can be int / pixels"), which is in the absent structure_types.cpp.  The value
carries the given tag and an integer payload, no pairing being rejected. -/
def Value.ofInt (type : TypeTag) (value : int) : Value :=
  .mk ⟨type, []⟩ (some (.TInt value)) []

/-- Modelled from the spec: the body of the constructor `Value(TypeTag type, std::string value)`
("can be string / transition / cursor / align"), which is in the absent
structure_types.cpp.  The value carries the given tag and a string payload, no
pairing being rejected. -/
def Value.ofString (type : TypeTag) (value : std.string) : Value :=
  .mk ⟨type, []⟩ (some (.TString value)) []

/-- Modelled from the spec: the body of the constructor `Value(Type type, Qt::Initialization)`
("default constructed value (uninitialized)"), which is in the absent
structure_types.cpp.  The value "carries that type but no payload; its
accessors return the zero value for the payload kind". -/
def Value.ofType (type : Type_) (_ : Qt.Initialization) : Value :=
  .mk type (some .Base) []

/-! ## Variable, StructField, Struct -/

/-- The member name of a Variable. -/
def Variable.name : Variable → FullName
  | .mk n _ => n

/-- The member value of a Variable. -/
def Variable.value : Variable → Value
  | .mk _ v => v

/-- The conversion `explicit operator bool() const` of Variable: `!name.isEmpty()`. -/
def Variable.operatorBool (v : Variable) : Bool :=
  !v.name.isEmpty

/-- The conversion `explicit operator bool() const` of StructField: `!name.isEmpty()`. -/
def StructField.operatorBool (f : StructField) : Bool :=
  !f.name.isEmpty

/-- The conversion `explicit operator bool() const` of Struct: `!name.isEmpty()`. -/
def Struct.operatorBool (s : Struct) : Bool :=
  !s.name.isEmpty

/-! ## The accessor of a tag

The tags and the payload accessors are paired by the header's comments on the
constructors ("can be only double", "can be int / pixels", "can be string /
transition / cursor / align") and by the record types. -/

/-- The ten payload accessors of Value, by name. -/
inductive Accessor
  | Int
  | Double
  | String
  | Point
  | Sprite
  | Size
  | Color
  | Margins
  | Font
  | Fields
  deriving DecidableEq, Repr

/-- What a payload accessor hands back, one alternative for each return type. -/
inductive Payload
  | int (value : int)
  | double (value : double)
  | string (value : std.string)
  | point (value : data.point)
  | sprite (value : data.sprite)
  | size (value : data.size)
  | color (value : data.color)
  | margins (value : data.margins)
  | font (value : data.font)
  | fields (value : Option data.fields)

/-- The payload accessor associated with a tag; Invalid has none. -/
def TypeTag.accessor : TypeTag → Option Accessor
  | .Invalid => none
  | .Int => some .Int
  | .Double => some .Double
  | .Pixels => some .Int
  | .String => some .String
  | .Color => some .Color
  | .Point => some .Point
  | .Sprite => some .Sprite
  | .Size => some .Size
  | .Transition => some .String
  | .Cursor => some .String
  | .Align => some .String
  | .Margins => some .Margins
  | .Font => some .Font
  | .Struct => some .Fields

/-- The zero value of the accessor's shape: what the base class DataBase returns. -/
def Accessor.zero : Accessor → Payload
  | .Int => .int 0
  | .Double => .double 0.0
  | .String => .string ""
  | .Point => .point data.point.zero
  | .Sprite => .sprite data.sprite.zero
  | .Size => .size data.size.zero
  | .Color => .color data.color.zero
  | .Margins => .margins data.margins.zero
  | .Font => .font data.font.zero
  | .Fields => .fields none

/-- Calling the named payload accessor on a Value. -/
def Value.call (v : Value) : Accessor → Option Payload
  | .Int => v.Int.map Payload.int
  | .Double => v.Double.map Payload.double
  | .String => v.String.map Payload.string
  | .Point => v.Point.map Payload.point
  | .Sprite => v.Sprite.map Payload.sprite
  | .Size => v.Size.map Payload.size
  | .Color => v.Color.map Payload.color
  | .Margins => v.Margins.map Payload.margins
  | .Font => v.Font.map Payload.font
  | .Fields => v.Fields.map Payload.fields

/-- The accessor that the dynamic class of a payload object overrides; the base class overrides none. -/
def Value.DataBase.accessor : Value.DataBase → Option Accessor
  | .Base => none
  | .TInt _ => some .Int
  | .TDouble _ => some .Double
  | .TString _ => some .String
  | .TPoint _ => some .Point
  | .TSprite _ => some .Sprite
  | .TSize _ => some .Size
  | .TColor _ => some .Color
  | .TMargins _ => some .Margins
  | .TFont _ => some .Font
  | .TFields _ => some .Fields

/-- The payload pairing that the constructors are meant to be called with: data_
is not null, and its object is of the base class (no payload) or of the class
whose accessor is the one of the tag. -/
def Value.matched (v : Value) : Bool :=
  match v.data_ with
  | none => false
  | some d => d.accessor == none || d.accessor == v.type.tag.accessor

/-! ## `data::pxAdjust`

The arithmetic of pxAdjust is double arithmetic.  A double is embedded here by
the rational number it stands for, and every double operation (the conversion
of the int product, the division by `4.`, the literal `0.01`, the addition) as
the exact operation followed by the rounding `fl` of the format.  The rounding
and the `qRound` of the Qt library are arguments of the embedding;
`double.round` (binary64, to nearest, ties to even) and `qRound` below are the
instances they stand for.  The signed product `value * scale` is undefined
when it leaves the range of int: the embedding returns `none` there. -/

/-- The range of the C++ type int (32 bits): INT_MIN ≤ n ≤ INT_MAX. -/
def int.inRange (n : Int) : Bool :=
  decide (-2147483648 ≤ n) && decide (n ≤ 2147483647)

/-- The function `inline int pxAdjust(int value, int scale)`:
`qRound((value * scale / 4.) + (value > 0 ? -0.01 : 0.01))`. -/
def data.pxAdjust (fl : ℚ → ℚ) (qRound : ℚ → int) (value scale : int) : Option int :=
  if int.inRange (value * scale) then
    some (qRound (fl (fl (fl ((value * scale : Int) : ℚ) / 4)
      + (if value > 0 then -(fl (1 / 100)) else fl (1 / 100)))))
  else
    none

/-- The nearest integer to a rational, a tie going to the even one. -/
def double.roundEven (y : ℚ) : Int :=
  if y - ⌊y⌋ < 1 / 2 then ⌊y⌋
  else if 1 / 2 < y - ⌊y⌋ then ⌊y⌋ + 1
  else if ⌊y⌋ % 2 = 0 then ⌊y⌋
  else ⌊y⌋ + 1

/-- The rounding of the binary64 format (53 significant bits, to nearest, ties
to even; the exponent range is not modelled): for 2^e ≤ |x| < 2^(e+1) the
nearest multiple of 2^(e-52). -/
def double.round (x : ℚ) : ℚ :=
  if x = 0 then 0
  else (double.roundEven (x / (2 : ℚ) ^ (Int.log 2 |x| - 52)) : ℚ) * (2 : ℚ) ^ (Int.log 2 |x| - 52)

/-- The conversion `int(d)` of a double to int: truncation toward zero. -/
def double.toInt (d : ℚ) : int :=
  if 0 ≤ d then ⌊d⌋ else ⌈d⌉

/-- The `qRound(double)` of the Qt library, `d >= 0.0 ? int(d + 0.5) : int(d - 0.5)`,
over a rounding of the format. -/
def qRound (fl : ℚ → ℚ) (d : ℚ) : int :=
  if d ≥ 0 then double.toInt (fl (d + 1 / 2)) else double.toInt (fl (d - 1 / 2))

/-- The rounding of a rational to the nearest integer, an exact half going toward zero. -/
def roundHalfTowardZero (x : ℚ) : Int :=
  if 0 ≤ x then ⌈x - 1 / 2⌉ else ⌊x + 1 / 2⌋

end codegen.style

/-! # The profile screen: `info/profile/info_profile_actions.cpp`

The two lambdas of namespace `Info::Profile` that compute on strings: the link
text mapper of `DetailsFiller::setupInfo` and `findBotCommand` /
`sendBotCommand` of `ActionsFiller::addBotCommandActions`.  A `QString` is the
list of its UTF-16 code units.  The calls that `sendBotCommand` makes on the
rest of the application are returned as a list, in the order they are made. -/

namespace Info.Profile

/-- A UTF-16 code unit, the QChar of the Qt library. -/
abbrev QChar := Nat

/-- The QString of the Qt library: its code units in order. -/
abbrev QString := List QChar

/-- The literal macros `qstr` and `qsl` on an ASCII literal: the QString of its characters. -/
def qstr (s : String) : QString :=
  s.toList.map Char.toNat

/-- The method `QString::isEmpty()`. -/
def QString.isEmpty (s : QString) : Bool :=
  List.isEmpty s

/-- The method `QString::size()`. -/
def QString.size (s : QString) : Int :=
  (List.length s : Int)

/-- The method `QString::startsWith(const QString &)`, case sensitive. -/
def QString.startsWith (s t : QString) : Bool :=
  List.isPrefixOf t s

/-- The method `QString::remove(int position, int n)` of the Qt library: a
negative position counts from the end; nothing is removed when the position is
outside the string; the string is cut at the position when n reaches its end. -/
def QString.remove (s : QString) (position n : Int) : QString :=
  let pos := if position < 0 then position + QString.size s else position
  if pos < 0 ∨ pos ≥ QString.size s then s
  else if n ≥ QString.size s - pos then List.take pos.toNat s
  else if n > 0 then List.take pos.toNat s ++ List.drop (pos.toNat + n.toNat) s
  else s

/-- The enum EntityInTextType, of which this file names EntityInTextCustomUrl;
`other` stands for its remaining enumerators. -/
inductive EntityInTextType
  | EntityInTextCustomUrl
  | other (index : Nat)
  deriving DecidableEq, Repr

/-- The class EntityInText, as built by `EntityInText(type, offset, length, data)`. -/
structure EntityInText where
  type : EntityInTextType
  offset : Int
  length : Int
  data : QString
  deriving DecidableEq, Repr

/-- The struct TextWithEntities, as built by `TextWithEntities{ text, entities }`. -/
structure TextWithEntities where
  text : QString
  entities : List EntityInText
  deriving DecidableEq, Repr

/-- The lambda mapped over `LinkValue(_peer)` in `DetailsFiller::setupInfo`. -/
def DetailsFiller.setupInfo.linkText (link : QString) : TextWithEntities :=
  let result : TextWithEntities := ⟨link, []⟩
  if !QString.isEmpty link then
    let remove := qstr "https://"
    let result : TextWithEntities :=
      if QString.startsWith result.text remove then
        ⟨QString.remove result.text 0 (QString.size remove), result.entities⟩
      else
        result
    ⟨result.text, result.entities ++
      [EntityInText.mk EntityInTextType.EntityInTextCustomUrl 0 (QString.size result.text) link]⟩
  else
    result

/-- The enum Qt::CaseSensitivity of the Qt library. -/
inductive Qt.CaseSensitivity
  | CaseInsensitive
  | CaseSensitive
  deriving DecidableEq, Repr

/-- The struct BotCommand: the members command and description. -/
structure BotCommand where
  command : QString
  description : QString
  deriving DecidableEq, Repr

/-- The struct BotInfo, of which the code reads the list commands. -/
structure BotInfo where
  commands : List BotCommand
  deriving DecidableEq, Repr

/-- The class UserData, of which the code reads the pointer botInfo (`none` is null). -/
structure UserData where
  botInfo : Option BotInfo
  deriving DecidableEq, Repr

/-- The message id handed to `Ui::showPeerHistory`: the constant ShowAtTheEndMsgId or a plain id. -/
inductive MsgId
  | ShowAtTheEndMsgId
  | id (value : Int)
  deriving DecidableEq, Repr

/-- A call made by sendBotCommand: `Ui::showPeerHistory(peer, msgId)` or
`App::sendBotCommand(peer, bot, cmd)`. -/
inductive Call
  | showPeerHistory (peer : UserData) (msgId : MsgId)
  | sendBotCommand (peer : UserData) (bot : UserData) (cmd : QString)
  deriving DecidableEq, Repr

/-- The `for_const` loop of findBotCommand over the commands still to visit,
with its fall-through `return QString()`.  The argument compare is the
`QString::compare(other, cs)` of the Qt library. -/
def ActionsFiller.addBotCommandActions.findBotCommand.loop
    (compare : QString → QString → Qt.CaseSensitivity → Int) (command : QString) :
    List BotCommand → QString
  | [] => []
  | data :: rest =>
    let isSame := compare data.command command Qt.CaseSensitivity.CaseInsensitive == 0
    if isSame then data.command
    else ActionsFiller.addBotCommandActions.findBotCommand.loop compare command rest

/-- The lambda findBotCommand of `ActionsFiller::addBotCommandActions`. -/
def ActionsFiller.addBotCommandActions.findBotCommand
    (compare : QString → QString → Qt.CaseSensitivity → Int) (user : UserData)
    (command : QString) : QString :=
  match user.botInfo with
  | none => []
  | some botInfo =>
    ActionsFiller.addBotCommandActions.findBotCommand.loop compare command botInfo.commands

/-- The lambda sendBotCommand of `ActionsFiller::addBotCommandActions`: the calls it makes. -/
def ActionsFiller.addBotCommandActions.sendBotCommand
    (compare : QString → QString → Qt.CaseSensitivity → Int) (user : UserData)
    (command : QString) : List Call :=
  let original := ActionsFiller.addBotCommandActions.findBotCommand compare user command
  if !QString.isEmpty original then
    [Call.showPeerHistory user MsgId.ShowAtTheEndMsgId,
      Call.sendBotCommand user user ('/'.toNat :: original)]
  else
    []

/-- The folding of one code unit used by the comparison below: A to Z go to lower case. -/
def QChar.foldAscii (c : QChar) : QChar :=
  if 65 ≤ c ∧ c ≤ 90 then c + 32 else c

/-- A comparison for the concrete instances below: `QString::compare(other, cs)`
on Latin letters, that is the difference of the first two code units that
differ (after folding A to Z to lower case when cs is CaseInsensitive), else
the order of the lengths.  The theorems take the comparison as an argument. -/
def QString.compare : QString → QString → Qt.CaseSensitivity → Int
  | [], [], _ => 0
  | [], _ :: _, _ => -1
  | _ :: _, [], _ => 1
  | a :: s, b :: t, cs =>
    let diff : Int :=
      match cs with
      | Qt.CaseSensitivity.CaseInsensitive => (QChar.foldAscii a : Int) - (QChar.foldAscii b : Int)
      | Qt.CaseSensitivity.CaseSensitive => (a : Int) - (b : Int)
    if diff ≠ 0 then diff else QString.compare s t cs

end Info.Profile

namespace codegen.style

/-! ## Theorems -/

/-- The comparison of two Types compares both members, whatever the tag. -/
theorem Type_.operatorEq_iff (a b : Type_) :
    Type_.operatorEq a b = true ↔ a.tag = b.tag ∧ a.name = b.name := by
  simp [Type_.operatorEq]

/-- The boolean conversion of a Value is false exactly when the tag of its type is Invalid. -/
theorem Value.operatorBool_eq_false_iff (v : Value) :
    v.operatorBool = false ↔ v.type.tag = TypeTag.Invalid := by
  simp [Value.operatorBool, Value.type]

/-- The constructors, called with a payload of the shape of the tag, build
Values with the matched pairing, and makeCopy keeps it. -/
theorem Value.matched_of_constructors :
    Value.new.matched = true
    ∧ (∀ p, (Value.ofPoint p).matched = true)
    ∧ (∀ p, (Value.ofSprite p).matched = true)
    ∧ (∀ p, (Value.ofSize p).matched = true)
    ∧ (∀ p, (Value.ofColor p).matched = true)
    ∧ (∀ p, (Value.ofMargins p).matched = true)
    ∧ (∀ p, (Value.ofFont p).matched = true)
    ∧ (∀ n fs, (Value.ofFields n fs).matched = true)
    ∧ (∀ p, (Value.ofDouble TypeTag.Double p).matched = true)
    ∧ (∀ p, (Value.ofInt TypeTag.Int p).matched = true)
    ∧ (∀ p, (Value.ofInt TypeTag.Pixels p).matched = true)
    ∧ (∀ p, (Value.ofString TypeTag.String p).matched = true)
    ∧ (∀ p, (Value.ofString TypeTag.Transition p).matched = true)
    ∧ (∀ p, (Value.ofString TypeTag.Cursor p).matched = true)
    ∧ (∀ p, (Value.ofString TypeTag.Align p).matched = true)
    ∧ (∀ t i, (Value.ofType t i).matched = true)
    ∧ (∀ v n, (Value.makeCopy v n).matched = v.matched) := by
  refine ⟨rfl, fun _ => rfl, fun _ => rfl, fun _ => rfl, fun _ => rfl, fun _ => rfl,
    fun _ => rfl, fun _ _ => rfl, fun _ => rfl, fun _ => rfl, fun _ => rfl, fun _ => rfl,
    fun _ => rfl, fun _ => rfl, fun _ => rfl, fun _ _ => rfl, fun v _ => ?_⟩
  cases v
  rfl

/-- No constructor leaves data_ null, whatever tag it is given, and makeCopy keeps data_. -/
theorem Value.data_of_constructors :
    Value.new.data_ ≠ none
    ∧ (∀ p, (Value.ofPoint p).data_ ≠ none)
    ∧ (∀ p, (Value.ofSprite p).data_ ≠ none)
    ∧ (∀ p, (Value.ofSize p).data_ ≠ none)
    ∧ (∀ p, (Value.ofColor p).data_ ≠ none)
    ∧ (∀ p, (Value.ofMargins p).data_ ≠ none)
    ∧ (∀ p, (Value.ofFont p).data_ ≠ none)
    ∧ (∀ n fs, (Value.ofFields n fs).data_ ≠ none)
    ∧ (∀ t p, (Value.ofDouble t p).data_ ≠ none)
    ∧ (∀ t p, (Value.ofInt t p).data_ ≠ none)
    ∧ (∀ t p, (Value.ofString t p).data_ ≠ none)
    ∧ (∀ t i, (Value.ofType t i).data_ ≠ none)
    ∧ (∀ v n, (Value.makeCopy v n).data_ = v.data_) := by
  refine ⟨?_, ?_, ?_, ?_, ?_, ?_, ?_, ?_, ?_, ?_, ?_, ?_, fun v _ => ?_⟩
  all_goals first
    | (cases v; rfl)
    | (intros; exact Option.some_ne_none _)

/-- C1, as stated, fails: the Types (Int, [x]) and (Int, []) have the same tag,
which is not Struct, and operator== still returns false on them, so it is not
equivalent to "equal tags and, when the tag is Struct, equal names". -/
theorem C1_operatorEq_same_tag_other_name :
    Type_.operatorEq ⟨TypeTag.Int, ["x"]⟩ ⟨TypeTag.Int, []⟩ = false
    ∧ ¬ (Type_.operatorEq ⟨TypeTag.Int, ["x"]⟩ ⟨TypeTag.Int, []⟩ = true
        ↔ ((⟨TypeTag.Int, ["x"]⟩ : Type_).tag = (⟨TypeTag.Int, []⟩ : Type_).tag
          ∧ ((⟨TypeTag.Int, ["x"]⟩ : Type_).tag = TypeTag.Struct
              → (⟨TypeTag.Int, ["x"]⟩ : Type_).name = (⟨TypeTag.Int, []⟩ : Type_).name))) := by
  decide

/-- C1, amended: operator==(a, b) is true exactly when the tags are equal and
the names are equal, the names being compared whatever the tag; so, for two
Types whose name is empty unless the tag is Struct, it is true exactly when the
tags are equal and, when that tag is Struct, the names are equal. -/
theorem C1_operatorEq_tag_and_name (a b : Type_) :
    (Type_.operatorEq a b = true ↔ a.tag = b.tag ∧ a.name = b.name)
    ∧ ((a.tag ≠ TypeTag.Struct → a.name = []) → (b.tag ≠ TypeTag.Struct → b.name = []) →
        (Type_.operatorEq a b = true
          ↔ a.tag = b.tag ∧ (a.tag = TypeTag.Struct → a.name = b.name))) := by
  refine ⟨Type_.operatorEq_iff a b, fun ha hb => ?_⟩
  rw [Type_.operatorEq_iff]
  constructor
  · rintro ⟨ht, hn⟩
    exact ⟨ht, fun _ => hn⟩
  · rintro ⟨ht, hn⟩
    refine ⟨ht, ?_⟩
    by_cases hs : a.tag = TypeTag.Struct
    · exact hn hs
    · rw [ha hs, hb (ht ▸ hs)]

/-- C2: v.makeCopy(n) returns a Value whose copyOf() is n, whose type() is that
of v, and on which each of the ten payload accessors returns what it returns on
v; the receiver, once the call has returned, is v itself (type, payload and
copyOf unchanged). -/
theorem C2_makeCopy_provenance_and_frame (v : Value) (n : FullName) :
    (v.makeCopy n).copyOf = n
    ∧ (v.makeCopy n).type = v.type
    ∧ (v.makeCopy n).Int = v.Int
    ∧ (v.makeCopy n).Double = v.Double
    ∧ (v.makeCopy n).String = v.String
    ∧ (v.makeCopy n).Point = v.Point
    ∧ (v.makeCopy n).Sprite = v.Sprite
    ∧ (v.makeCopy n).Size = v.Size
    ∧ (v.makeCopy n).Color = v.Color
    ∧ (v.makeCopy n).Margins = v.Margins
    ∧ (v.makeCopy n).Font = v.Font
    ∧ (v.makeCopy n).Fields = v.Fields
    ∧ (Value.makeCopyRun v n).1 = v := by
  cases v
  refine ⟨rfl, rfl, rfl, rfl, rfl, rfl, rfl, rfl, rfl, rfl, rfl, rfl, rfl⟩

/-- C3: round trip.  A Value constructed from a payload of a kind and read back
with the accessor of that kind returns that payload: the six records, a double
with tag Double, an int with tag Int or Pixels, a string with tag String,
Transition, Cursor or Align; so Value(color{255,0,0,255}).Color() is
{255,0,0,255}. -/
theorem C3_construct_then_read_back :
    (∀ p : data.point, (Value.ofPoint p).Point = some p)
    ∧ (∀ p : data.sprite, (Value.ofSprite p).Sprite = some p)
    ∧ (∀ p : data.size, (Value.ofSize p).Size = some p)
    ∧ (∀ p : data.color, (Value.ofColor p).Color = some p)
    ∧ (∀ p : data.margins, (Value.ofMargins p).Margins = some p)
    ∧ (∀ p : data.font, (Value.ofFont p).Font = some p)
    ∧ (∀ p : double, (Value.ofDouble TypeTag.Double p).Double = some p)
    ∧ (∀ p : int, (Value.ofInt TypeTag.Int p).Int = some p
        ∧ (Value.ofInt TypeTag.Pixels p).Int = some p)
    ∧ (∀ p : std.string, (Value.ofString TypeTag.String p).String = some p
        ∧ (Value.ofString TypeTag.Transition p).String = some p
        ∧ (Value.ofString TypeTag.Cursor p).String = some p
        ∧ (Value.ofString TypeTag.Align p).String = some p)
    ∧ (Value.ofColor ⟨255, 0, 0, 255⟩).Color = some ⟨255, 0, 0, 255⟩ :=
  ⟨fun _ => rfl, fun _ => rfl, fun _ => rfl, fun _ => rfl, fun _ => rfl, fun _ => rfl,
    fun _ => rfl, fun _ => ⟨rfl, rfl⟩, fun _ => ⟨rfl, rfl, rfl, rfl⟩, rfl⟩

/-- C4, as stated, fails, at two inputs.  The Value built from the int 5 with tag
Pixels has a tag other than Int, and the accessor associated with the tag Int,
which is Int(), returns 5 on it, not the zero value 0: Int and Pixels share
their accessor, and the payload of this Value is of the shape of its tag.  The
Value built from the int 5 with tag Color, a pairing that no constructor
rejects, has a tag other than Int and a payload that is not of the shape of
its tag, and Int() returns 5 on it as well. -/
theorem C4_Int_reads_payload_under_Pixels_and_under_Color :
    (TypeTag.Int ≠ (Value.ofInt TypeTag.Pixels 5).type.tag
      ∧ TypeTag.Int.accessor = some Accessor.Int
      ∧ (Value.ofInt TypeTag.Pixels 5).matched = true
      ∧ (Value.ofInt TypeTag.Pixels 5).Int = some 5
      ∧ (Value.ofInt TypeTag.Pixels 5).call Accessor.Int ≠ some Accessor.Int.zero)
    ∧ (TypeTag.Int ≠ (Value.ofInt TypeTag.Color 5).type.tag
      ∧ (Value.ofInt TypeTag.Color 5).type.tag.accessor ≠ some Accessor.Int
      ∧ (Value.ofInt TypeTag.Color 5).matched = false
      ∧ (Value.ofInt TypeTag.Color 5).Int = some 5
      ∧ (Value.ofInt TypeTag.Color 5).call Accessor.Int ≠ some Accessor.Int.zero) := by
  have h50 : ∀ x : Option Payload, x = some (Payload.int 5) → x ≠ some Accessor.Int.zero := by
    intro x hx h
    rw [hx] at h
    have h5 : Payload.int 5 = Payload.int 0 := Option.some.inj h
    exact absurd (Payload.int.inj h5) (by decide)
  exact ⟨⟨by decide, rfl, rfl, rfl, h50 _ rfl⟩, ⟨by decide, by decide, rfl, rfl, h50 _ rfl⟩⟩

/-- C4, amended: on a Value whose data_ is not null, as the constructors build
it, the payload accessor associated with a tag T does not fail, and it returns
the zero value of its shape (0, 0.0, the empty string, the zero-initialised
record, the null pointer) whenever the payload object is not of the class that
overrides this accessor.  So, on a Value whose payload object is of the class
its own tag calls for, or of the base class, the accessor associated with every
tag T whose accessor is not the accessor of the tag of the Value returns the
zero value of its shape. -/
theorem C4_other_shape_accessor_returns_zero (v : Value) (T : TypeTag) (a : Accessor)
    (hT : T.accessor = some a) :
    (v.matched = true → v.type.tag.accessor ≠ some a → v.call a = some a.zero)
    ∧ (∀ d, v.data_ = some d → d.accessor ≠ some a → v.call a = some a.zero)
    ∧ (∀ d, v.data_ = some d → ∃ r, v.call a = some r) := by
  obtain ⟨t, d, c⟩ := v
  refine ⟨fun hv hne => ?_, fun d' hd hne => ?_, fun d' hd => ?_⟩
  · cases d with
    | none => simp [Value.matched, Value.data_] at hv
    | some d =>
      cases d <;> cases a <;>
        simp_all [Value.matched, Value.data_, Value.type, Value.type_, Value.call,
          Value.DataBase.accessor, Accessor.zero, Value.Int, Value.Double, Value.String,
          Value.Point, Value.Sprite, Value.Size, Value.Color, Value.Margins, Value.Font,
          Value.Fields, Value.DataBase.Int, Value.DataBase.Double, Value.DataBase.String,
          Value.DataBase.Point, Value.DataBase.Sprite, Value.DataBase.Size,
          Value.DataBase.Color, Value.DataBase.Margins, Value.DataBase.Font,
          Value.DataBase.Fields]
  · simp only [Value.data_] at hd
    subst hd
    cases d' <;> cases a <;>
      simp_all [Value.data_, Value.call,
        Value.DataBase.accessor, Accessor.zero, Value.Int, Value.Double, Value.String,
        Value.Point, Value.Sprite, Value.Size, Value.Color, Value.Margins, Value.Font,
        Value.Fields, Value.DataBase.Int, Value.DataBase.Double, Value.DataBase.String,
        Value.DataBase.Point, Value.DataBase.Sprite, Value.DataBase.Size,
        Value.DataBase.Color, Value.DataBase.Margins, Value.DataBase.Font,
        Value.DataBase.Fields]
  · simp only [Value.data_] at hd
    subst hd
    cases a <;>
      simp [Value.data_, Value.call, Value.Int, Value.Double, Value.String,
        Value.Point, Value.Sprite, Value.Size, Value.Color, Value.Margins, Value.Font,
        Value.Fields]

/-- The Int() of a Color-tagged Value is 0: the amended C4 at Value(color{255,0,0,255})
and the tag Int. -/
theorem C4_other_shape_accessor_returns_zero_witness :
    TypeTag.Int.accessor = some Accessor.Int
    ∧ (Value.ofColor ⟨255, 0, 0, 255⟩).matched = true
    ∧ (Value.ofColor ⟨255, 0, 0, 255⟩).type.tag.accessor ≠ some Accessor.Int
    ∧ (Value.ofColor ⟨255, 0, 0, 255⟩).call Accessor.Int = some (Payload.int 0) :=
  ⟨rfl, rfl, by decide,
    (C4_other_shape_accessor_returns_zero (Value.ofColor ⟨255, 0, 0, 255⟩) TypeTag.Int
      Accessor.Int rfl).1 rfl (by decide)⟩

/-- C5, as stated, fails: the Value built by the (Type, Qt::Initialization)
constructor from the Type with tag Invalid, and the one built by the
(TypeTag, int) constructor from the tag Invalid, are not default-constructed,
yet their tag is Invalid and they convert to false. -/
theorem C5_Invalid_tag_from_other_constructors :
    (Value.ofType ⟨TypeTag.Invalid, []⟩ Qt.Initialization.Uninitialized).type.tag
        = TypeTag.Invalid
    ∧ (Value.ofType ⟨TypeTag.Invalid, []⟩ Qt.Initialization.Uninitialized).operatorBool = false
    ∧ (Value.ofInt TypeTag.Invalid 0).type.tag = TypeTag.Invalid
    ∧ (Value.ofInt TypeTag.Invalid 0).operatorBool = false := by
  decide

/-- C5, amended: a Value converts to false exactly when the tag of its type is
Invalid; Value() has the tag Invalid and converts to false; every Value built
from a record payload or from (FullName, fields) converts to true; a Value built
from (TypeTag, double), (TypeTag, int), (TypeTag, string) or
(Type, Qt::Initialization) converts to true exactly when the tag it is given is
not Invalid. -/
theorem C5_conversion_follows_the_given_tag :
    (∀ v : Value, v.operatorBool = false ↔ v.type.tag = TypeTag.Invalid)
    ∧ Value.new.type.tag = TypeTag.Invalid
    ∧ Value.new.operatorBool = false
    ∧ (∀ p, (Value.ofPoint p).operatorBool = true)
    ∧ (∀ p, (Value.ofSprite p).operatorBool = true)
    ∧ (∀ p, (Value.ofSize p).operatorBool = true)
    ∧ (∀ p, (Value.ofColor p).operatorBool = true)
    ∧ (∀ p, (Value.ofMargins p).operatorBool = true)
    ∧ (∀ p, (Value.ofFont p).operatorBool = true)
    ∧ (∀ n fs, (Value.ofFields n fs).operatorBool = true)
    ∧ (∀ t p, (Value.ofDouble t p).operatorBool = true ↔ t ≠ TypeTag.Invalid)
    ∧ (∀ t p, (Value.ofInt t p).operatorBool = true ↔ t ≠ TypeTag.Invalid)
    ∧ (∀ t p, (Value.ofString t p).operatorBool = true ↔ t ≠ TypeTag.Invalid)
    ∧ (∀ t i, (Value.ofType t i).operatorBool = true ↔ t.tag ≠ TypeTag.Invalid) := by
  refine ⟨Value.operatorBool_eq_false_iff, rfl, rfl, fun _ => rfl, fun _ => rfl,
    fun _ => rfl, fun _ => rfl, fun _ => rfl, fun _ => rfl, fun _ _ => rfl, ?_, ?_, ?_, ?_⟩ <;>
    intro t _ <;>
    simp [Value.operatorBool, Value.type_, Value.ofDouble, Value.ofInt, Value.ofString,
      Value.ofType]

/-- C6: each record constructor sets the tag of its payload shape (Point,
Sprite, Size, Color, Margins, Font), and Value(n, fs).type() is the Type with
tag Struct and name n. -/
theorem C6_constructor_sets_matching_tag :
    (∀ r, (Value.ofPoint r).type.tag = TypeTag.Point)
    ∧ (∀ r, (Value.ofSprite r).type.tag = TypeTag.Sprite)
    ∧ (∀ r, (Value.ofSize r).type.tag = TypeTag.Size)
    ∧ (∀ r, (Value.ofColor r).type.tag = TypeTag.Color)
    ∧ (∀ r, (Value.ofMargins r).type.tag = TypeTag.Margins)
    ∧ (∀ r, (Value.ofFont r).type.tag = TypeTag.Font)
    ∧ (∀ n fs, (Value.ofFields n fs).type = ⟨TypeTag.Struct, n⟩) :=
  ⟨fun _ => rfl, fun _ => rfl, fun _ => rfl, fun _ => rfl, fun _ => rfl, fun _ => rfl,
    fun _ _ => rfl⟩

/-- C7: Value(n, fs).Fields() does not fail and is a non-null pointer to the
list fs itself, so element for element in the supplied order, at each reading;
for the struct named button.bg with no field it is a non-null empty list. -/
theorem C7_Fields_is_the_supplied_list :
    (∀ (n : FullName) (fs : data.fields),
        (Value.ofFields n fs).Fields = some (some fs)
        ∧ (∀ l₁ l₂, (Value.ofFields n fs).Fields = some (some l₁) →
            (Value.ofFields n fs).Fields = some (some l₂) →
            l₁ = fs ∧ l₂ = fs ∧ ∀ i, l₁.get? i = fs.get? i))
    ∧ (Value.ofFields ["button", "bg"] []).Fields = some (some []) := by
  refine ⟨fun n fs => ⟨rfl, fun l₁ l₂ h₁ h₂ => ?_⟩, rfl⟩
  have e₁ : fs = l₁ := Option.some.inj (Option.some.inj h₁)
  have e₂ : fs = l₂ := Option.some.inj (Option.some.inj h₂)
  subst e₁
  exact ⟨rfl, e₂.symm, fun _ => rfl⟩

/-- C8: the uninitialized Value(t, Qt::Initialization) has type() equal to t,
tag and name, and none of its payload accessors fails: each returns the zero
value of its kind (0, 0.0, the empty string, the zero-initialised record; for
the field list, a null pointer or an empty list). -/
theorem C8_uninitialized_keeps_type_and_reads_zero (t : Type_) (i : Qt.Initialization) :
    (Value.ofType t i).type = t
    ∧ (Value.ofType t i).Int = some 0
    ∧ (Value.ofType t i).Double = some 0.0
    ∧ (Value.ofType t i).String = some ""
    ∧ (Value.ofType t i).Point = some ⟨0, 0⟩
    ∧ (Value.ofType t i).Sprite = some ⟨0, 0, 0, 0⟩
    ∧ (Value.ofType t i).Size = some ⟨0, 0⟩
    ∧ (Value.ofType t i).Color = some ⟨0, 0, 0, 0⟩
    ∧ (Value.ofType t i).Margins = some ⟨0, 0, 0, 0⟩
    ∧ (Value.ofType t i).Font = some ⟨"", 0, 0⟩
    ∧ (∃ p, (Value.ofType t i).Fields = some p ∧ (p = none ∨ p = some [])) :=
  ⟨rfl, rfl, rfl, rfl, rfl, rfl, rfl, rfl, rfl, rfl, none, rfl, Or.inl rfl⟩

/-- C9: the boolean conversion of a Type is true exactly when its tag is not
Invalid, whatever its name. -/
theorem C9_Type_present_iff_tag_not_Invalid (t : Type_) :
    Type_.operatorBool t = true ↔ t.tag ≠ TypeTag.Invalid := by
  simp [Type_.operatorBool]

/-- C10: the boolean conversion of a Variable, of a StructField and of a Struct
is true exactly when the name has at least one segment, whatever the value,
the type or the field list. -/
theorem C10_present_iff_name_has_a_segment :
    (∀ (name : FullName) (value : Value),
        Variable.operatorBool (.mk name value) = true ↔ 1 ≤ name.length)
    ∧ (∀ (name : FullName) (type : Type_),
        StructField.operatorBool ⟨name, type⟩ = true ↔ 1 ≤ name.length)
    ∧ (∀ (name : FullName) (fields : List StructField),
        Struct.operatorBool ⟨name, fields⟩ = true ↔ 1 ≤ name.length) := by
  refine ⟨fun name _ => ?_, fun name _ => ?_, fun name _ => ?_⟩ <;>
    cases name <;> simp [Variable.operatorBool, Variable.name, StructField.operatorBool,
      Struct.operatorBool]

/-! ## Theorems on `data::pxAdjust` -/

/-- The absolute form of the rounding error on the range of pxAdjust: below
2^32 in size, a rounding moves a number by 2^-21 at most. -/
theorem fl_abs_error (fl : ℚ → ℚ) (hfl : ∀ x : ℚ, |fl x - x| ≤ |x| / 2 ^ 53)
    (x : ℚ) (hx : |x| ≤ 4294967296) :
    -(1 / 2097152) ≤ fl x - x ∧ fl x - x ≤ 1 / 2097152 := by
  have h := hfl x
  have h2 : |x| / 2 ^ 53 ≤ 4294967296 / 2 ^ 53 := by
    apply div_le_div_of_nonneg_right hx
    positivity
  have h3 : (4294967296 : ℚ) / 2 ^ 53 = 1 / 2097152 := by norm_num
  exact abs_le.mp (by linarith)

/-- The quarter of an integer rounds, half toward zero, to the one integer m
with -2 ≤ 4m - p ≤ 1 when p is not negative, and with -1 ≤ 4m - p ≤ 2 when it is. -/
theorem roundHalfTowardZero_quarter (p m : Int)
    (h : (0 ≤ p ∧ -2 ≤ 4 * m - p ∧ 4 * m - p ≤ 1) ∨ (p ≤ 0 ∧ -1 ≤ 4 * m - p ∧ 4 * m - p ≤ 2)) :
    roundHalfTowardZero ((p : ℚ) / 4) = m := by
  unfold roundHalfTowardZero
  by_cases hp : 0 ≤ p
  · have hq : (0 : ℚ) ≤ (p : ℚ) / 4 := by
      have : (0 : ℚ) ≤ (p : ℚ) := by exact_mod_cast hp
      positivity
    rw [if_pos hq, Int.ceil_eq_iff]
    have hm : -2 ≤ 4 * m - p ∧ 4 * m - p ≤ 1 := by omega
    obtain ⟨h1, h2⟩ := hm
    have h1q : (-2 : ℚ) ≤ 4 * (m : ℚ) - (p : ℚ) := by exact_mod_cast h1
    have h2q : 4 * (m : ℚ) - (p : ℚ) ≤ 1 := by exact_mod_cast h2
    constructor <;> linarith
  · have hp0 : p < 0 := by omega
    have hq : ¬ (0 : ℚ) ≤ (p : ℚ) / 4 := by
      have : (p : ℚ) < 0 := by exact_mod_cast hp0
      intro h0
      linarith
    rw [if_neg hq, Int.floor_eq_iff]
    have hm : -1 ≤ 4 * m - p ∧ 4 * m - p ≤ 2 := by omega
    obtain ⟨h1, h2⟩ := hm
    have h1q : (-1 : ℚ) ≤ 4 * (m : ℚ) - (p : ℚ) := by exact_mod_cast h1
    have h2q : 4 * (m : ℚ) - (p : ℚ) ≤ 2 := by exact_mod_cast h2
    constructor <;> linarith

/-- The sum that pxAdjust hands to qRound is, up to 2^-19, the quarter of the
product moved by the exact hundredth, and is within 2^30 in size. -/
theorem pxAdjust_sum_error (fl : ℚ → ℚ) (hfl : ∀ x : ℚ, |fl x - x| ≤ |x| / 2 ^ 53)
    (p : Int) (hlo : -2147483648 ≤ p) (hhi : p ≤ 2147483647) (t t₀ : ℚ)
    (ht : -(1 / 2097152) ≤ t - t₀ ∧ t - t₀ ≤ 1 / 2097152) (ht₀ : -1 ≤ t₀ ∧ t₀ ≤ 1) :
    (-(1 / 524288) ≤ fl (fl (fl (p : ℚ) / 4) + t) - ((p : ℚ) / 4 + t₀)
      ∧ fl (fl (fl (p : ℚ) / 4) + t) - ((p : ℚ) / 4 + t₀) ≤ 1 / 524288)
    ∧ |fl (fl (fl (p : ℚ) / 4) + t)| ≤ 1073741824 := by
  have hloq : (-2147483648 : ℚ) ≤ (p : ℚ) := by exact_mod_cast hlo
  have hhiq : (p : ℚ) ≤ 2147483647 := by exact_mod_cast hhi
  have hP : |(p : ℚ)| ≤ 4294967296 := by
    rw [abs_le]; constructor <;> linarith
  have ha := fl_abs_error fl hfl _ hP
  have hA : |fl (p : ℚ) / 4| ≤ 4294967296 := by
    rw [abs_le]; constructor <;> linarith [ha.1, ha.2]
  have hb := fl_abs_error fl hfl _ hA
  have hS : |fl (fl (p : ℚ) / 4) + t| ≤ 4294967296 := by
    rw [abs_le]; constructor <;> linarith [ha.1, ha.2, hb.1, hb.2, ht.1, ht.2, ht₀.1, ht₀.2]
  have hs := fl_abs_error fl hfl _ hS
  refine ⟨⟨?_, ?_⟩, ?_⟩
  · linarith [ha.1, ha.2, hb.1, hb.2, ht.1, ht.2, hs.1, hs.2]
  · linarith [ha.1, ha.2, hb.1, hb.2, ht.1, ht.2, hs.1, hs.2]
  · rw [abs_le]
    constructor <;> linarith [ha.1, ha.2, hb.1, hb.2, ht.1, ht.2, ht₀.1, ht₀.2, hs.1, hs.2]


/-- The range test of int, as two inequalities. -/
theorem int.inRange_iff (n : Int) :
    int.inRange n = true ↔ -2147483648 ≤ n ∧ n ≤ 2147483647 := by
  simp [int.inRange]

/-- The value of pxAdjust for a scale that is not negative and a product within
int: the quarter of the product, rounded half toward zero, whatever rounding of
relative error 2^-53 the doubles have and whatever nearest integer (up to 2^-20)
qRound returns. -/
theorem data.pxAdjust_eq (fl : ℚ → ℚ) (qRound : ℚ → int)
    (hfl : ∀ x : ℚ, |fl x - x| ≤ |x| / 2 ^ 53)
    (hq : ∀ d : ℚ, |d| ≤ 2 ^ 30 → |(qRound d : ℚ) - d| ≤ 1 / 2 + 1 / 2 ^ 20)
    (value scale : int) (hs : 0 ≤ scale) (hp : int.inRange (value * scale) = true) :
    data.pxAdjust fl qRound value scale
      = some (roundHalfTowardZero (((value * scale : Int) : ℚ) / 4)) := by
  obtain ⟨hlo, hhi⟩ := (int.inRange_iff _).mp hp
  have hc : |(1 / 100 : ℚ)| ≤ 4294967296 := by
    rw [abs_le]; constructor <;> norm_num
  have hc := fl_abs_error fl hfl _ hc
  have hq' : ∀ d : ℚ, |d| ≤ 1073741824 →
      -(524289 / 1048576) ≤ (qRound d : ℚ) - d ∧ (qRound d : ℚ) - d ≤ 524289 / 1048576 := by
    intro d hd
    have h := hq d (by norm_num; exact hd)
    have e : (1 / 2 + 1 / 2 ^ 20 : ℚ) = 524289 / 1048576 := by norm_num
    rw [e] at h
    exact abs_le.mp h
  unfold data.pxAdjust
  rw [if_pos hp]
  congr 1
  symm
  apply roundHalfTowardZero_quarter
  by_cases hv : value > 0
  · rw [if_pos hv]
    have hp0 : 0 ≤ value * scale := Int.mul_nonneg (le_of_lt hv) hs
    generalize value * scale = p at hlo hhi hp0 ⊢
    obtain ⟨⟨e1, e2⟩, hr⟩ := pxAdjust_sum_error fl hfl p hlo hhi
      (-(fl (1 / 100))) (-(1 / 100)) ⟨by linarith [hc.2], by linarith [hc.1]⟩
      ⟨by norm_num, by norm_num⟩
    have hn := hq' _ hr
    generalize qRound (fl (fl (fl (p : ℚ) / 4) + -(fl (1 / 100)))) = n at hn ⊢
    generalize fl (fl (fl (p : ℚ) / 4) + -(fl (1 / 100))) = s at hn e1 e2
    left
    refine ⟨hp0, ?_, ?_⟩
    · have h : (-3 : ℚ) < 4 * (n : ℚ) - (p : ℚ) := by linarith [hn.1, hn.2]
      have h' : (-3 : Int) < 4 * n - p := by exact_mod_cast h
      omega
    · have h : 4 * (n : ℚ) - (p : ℚ) < 2 := by linarith [hn.1, hn.2]
      have h' : (2 : Int) > 4 * n - p := by exact_mod_cast h
      omega
  · rw [if_neg hv]
    have hp0 : value * scale ≤ 0 :=
      mul_nonpos_iff.mpr (Or.inr ⟨not_lt.mp hv, hs⟩)
    generalize value * scale = p at hlo hhi hp0 ⊢
    obtain ⟨⟨e1, e2⟩, hr⟩ := pxAdjust_sum_error fl hfl p hlo hhi
      (fl (1 / 100)) (1 / 100) ⟨by linarith [hc.1], by linarith [hc.2]⟩
      ⟨by norm_num, by norm_num⟩
    have hn := hq' _ hr
    generalize qRound (fl (fl (fl (p : ℚ) / 4) + fl (1 / 100))) = n at hn ⊢
    generalize fl (fl (fl (p : ℚ) / 4) + fl (1 / 100)) = s at hn e1 e2
    right
    refine ⟨hp0, ?_, ?_⟩
    · have h : (-2 : ℚ) < 4 * (n : ℚ) - (p : ℚ) := by linarith [hn.1, hn.2]
      have h' : (-2 : Int) < 4 * n - p := by exact_mod_cast h
      omega
    · have h : 4 * (n : ℚ) - (p : ℚ) < 3 := by linarith [hn.1, hn.2]
      have h' : (3 : Int) > 4 * n - p := by exact_mod_cast h
      omega


/-- The tie-to-even rounding returns a nearest integer. -/
theorem double.roundEven_error (y : ℚ) : |(double.roundEven y : ℚ) - y| ≤ 1 / 2 := by
  have h1 := Int.floor_le y
  have h2 := Int.lt_floor_add_one y
  unfold double.roundEven
  rw [abs_le]
  split_ifs <;> push_cast <;> constructor <;> linarith

/-- The binary64 rounding has relative error 2^-53 at most. -/
theorem double.round_error (x : ℚ) : |double.round x - x| ≤ |x| / 2 ^ 53 := by
  unfold double.round
  by_cases hx : x = 0
  · simp [hx]
  · rw [if_neg hx]
    have hpos : 0 < |x| := abs_pos.mpr hx
    have hlog : ((2 : ℕ) : ℚ) ^ Int.log 2 |x| ≤ |x| := Int.zpow_log_le_self (by norm_num) hpos
    rw [Nat.cast_ofNat] at hlog
    generalize Int.log 2 |x| = e at hlog ⊢
    have hw : (0 : ℚ) < (2 : ℚ) ^ (e - 52) := by positivity
    have hwe : (2 : ℚ) ^ (e - 52) * 2 ^ 52 = (2 : ℚ) ^ e := by
      rw [zpow_sub₀ (by norm_num : (2 : ℚ) ≠ 0)]
      have : (2 : ℚ) ^ (52 : ℤ) = 2 ^ 52 := by norm_cast
      rw [this]
      field_simp
    generalize (2 : ℚ) ^ (e - 52) = w at hw hwe ⊢
    have hr := double.roundEven_error (x / w)
    have hmul : (double.roundEven (x / w) : ℚ) * w - x
        = ((double.roundEven (x / w) : ℚ) - x / w) * w := by
      field_simp
    rw [hmul, abs_mul, abs_of_pos hw]
    have h1 : |(double.roundEven (x / w) : ℚ) - x / w| * w ≤ 1 / 2 * w :=
      mul_le_mul_of_nonneg_right hr (le_of_lt hw)
    have h2 : w * 2 ^ 52 ≤ |x| := by rw [hwe]; exact hlog
    have h3 : |x| / 2 ^ 53 = |x| * (1 / 2 ^ 53) := by ring
    rw [h3]
    norm_num at h2 ⊢
    linarith

/-- The truncation of a double to int is within one of it, on the side of zero. -/
theorem double.toInt_bounds (d : ℚ) :
    (0 ≤ d → (double.toInt d : ℚ) ≤ d ∧ d < (double.toInt d : ℚ) + 1)
    ∧ (d ≤ 0 → d ≤ (double.toInt d : ℚ) ∧ (double.toInt d : ℚ) < d + 1) := by
  unfold double.toInt
  constructor
  · intro h
    rw [if_pos h]
    exact ⟨Int.floor_le d, Int.lt_floor_add_one d⟩
  · intro h
    by_cases h0 : 0 ≤ d
    · have hd : d = 0 := le_antisymm h h0
      subst hd
      simp
    · rw [if_neg h0]
      exact ⟨Int.le_ceil d, Int.ceil_lt_add_one d⟩

/-- The qRound of the Qt library returns, within 2^30, a nearest integer up to 2^-20. -/
theorem qRound_error (fl : ℚ → ℚ) (hfl : ∀ x : ℚ, |fl x - x| ≤ |x| / 2 ^ 53)
    (d : ℚ) (hd : |d| ≤ 2 ^ 30) : |(qRound fl d : ℚ) - d| ≤ 1 / 2 + 1 / 2 ^ 20 := by
  have hd' := abs_le.mp hd
  norm_num at hd'
  have e : (1 / 2 + 1 / 2 ^ 20 : ℚ) = 524289 / 1048576 := by norm_num
  rw [e, abs_le]
  unfold qRound
  by_cases h0 : d ≥ 0
  · rw [if_pos h0]
    have hx : |d + 1 / 2| ≤ 4294967296 := by
      rw [abs_le]; constructor <;> linarith [hd'.1, hd'.2]
    have hf := fl_abs_error fl hfl _ hx
    have ht := (double.toInt_bounds (fl (d + 1 / 2))).1 (by linarith [hf.1])
    generalize (double.toInt (fl (d + 1 / 2)) : ℚ) = n at ht ⊢
    constructor <;> linarith [hf.1, hf.2, ht.1, ht.2]
  · rw [if_neg h0]
    have h0' : d < 0 := not_le.mp h0
    have hx : |d - 1 / 2| ≤ 4294967296 := by
      rw [abs_le]; constructor <;> linarith [hd'.1, hd'.2]
    have hf := fl_abs_error fl hfl _ hx
    have ht := (double.toInt_bounds (fl (d - 1 / 2))).2 (by linarith [hf.2])
    generalize (double.toInt (fl (d - 1 / 2)) : ℚ) = n at ht ⊢
    constructor <;> linarith [hf.1, hf.2, ht.1, ht.2]

/-- The rounding half toward zero returns a nearest integer, and on a tie the
one nearer to zero. -/
theorem roundHalfTowardZero_nearest (x : ℚ) :
    |(roundHalfTowardZero x : ℚ) - x| ≤ 1 / 2
    ∧ (|(roundHalfTowardZero x : ℚ) - x| = 1 / 2 → |(roundHalfTowardZero x : ℚ)| < |x|) := by
  unfold roundHalfTowardZero
  by_cases h : 0 ≤ x
  · rw [if_pos h]
    have h1 := Int.le_ceil (x - 1 / 2)
    have h2 := Int.ceil_lt_add_one (x - 1 / 2)
    have h3 : (0 : ℚ) ≤ (⌈x - 1 / 2⌉ : ℚ) := by
      have : (-1 : ℚ) < (⌈x - 1 / 2⌉ : ℚ) := by linarith
      have h' : (-1 : Int) < ⌈x - 1 / 2⌉ := by exact_mod_cast this
      have h'' : (0 : Int) ≤ ⌈x - 1 / 2⌉ := by omega
      exact_mod_cast h''
    generalize (⌈x - 1 / 2⌉ : ℚ) = n at h1 h2 h3 ⊢
    refine ⟨abs_le.mpr ⟨by linarith, by linarith⟩, fun he => ?_⟩
    rw [abs_of_nonneg h3, abs_of_nonneg h]
    rcases abs_eq (by norm_num : (0 : ℚ) ≤ 1 / 2) |>.mp he with h4 | h4 <;> linarith
  · rw [if_neg h]
    have hx : x < 0 := not_le.mp h
    have h1 := Int.floor_le (x + 1 / 2)
    have h2 := Int.lt_floor_add_one (x + 1 / 2)
    have h3 : (⌊x + 1 / 2⌋ : ℚ) ≤ 0 := by
      have : (⌊x + 1 / 2⌋ : ℚ) < 1 := by linarith
      have h' : (1 : Int) > ⌊x + 1 / 2⌋ := by exact_mod_cast this
      have h'' : ⌊x + 1 / 2⌋ ≤ (0 : Int) := by omega
      exact_mod_cast h''
    generalize (⌊x + 1 / 2⌋ : ℚ) = n at h1 h2 h3 ⊢
    refine ⟨abs_le.mpr ⟨by linarith, by linarith⟩, fun he => ?_⟩
    rw [abs_of_nonpos h3, abs_of_neg hx]
    rcases abs_eq (by norm_num : (0 : ℚ) ≤ 1 / 2) |>.mp he with h4 | h4 <;> linarith

/-- The rounding half toward zero of zero is zero. -/
theorem roundHalfTowardZero_zero : roundHalfTowardZero 0 = 0 := by
  unfold roundHalfTowardZero
  rw [if_pos (le_refl 0), Int.ceil_eq_iff]
  norm_num

/-- The rounding half toward zero is odd. -/
theorem roundHalfTowardZero_neg (x : ℚ) :
    roundHalfTowardZero (-x) = -roundHalfTowardZero x := by
  rcases lt_trichotomy x 0 with h | h | h
  · unfold roundHalfTowardZero
    rw [if_pos (by linarith : (0 : ℚ) ≤ -x), if_neg (by linarith : ¬ (0 : ℚ) ≤ x)]
    rw [← Int.ceil_neg]
    congr 1
    ring
  · subst h
    rw [neg_zero, roundHalfTowardZero_zero, neg_zero]
  · unfold roundHalfTowardZero
    rw [if_neg (by linarith : ¬ (0 : ℚ) ≤ -x), if_pos (by linarith : (0 : ℚ) ≤ x)]
    rw [← Int.floor_neg]
    congr 1
    ring


/-- C11: for a scale that is not negative and a product value*scale within int,
pxAdjust(value, scale) is the exact rational value*scale/4 rounded to the
nearest integer, an exact half going toward zero; so pxAdjust(value, 4) is
value, pxAdjust(0, scale) is 0 and pxAdjust(-value, scale) is
-pxAdjust(value, scale).  The doubles are any format whose rounding has
relative error 2^-53 at most, and qRound any function returning a nearest
integer, up to 2^-20, of a double within 2^30. -/
theorem C11_pxAdjust_rounds_quarter_half_toward_zero (fl : ℚ → ℚ) (qRound : ℚ → int)
    (hfl : ∀ x : ℚ, |fl x - x| ≤ |x| / 2 ^ 53)
    (hq : ∀ d : ℚ, |d| ≤ 2 ^ 30 → |(qRound d : ℚ) - d| ≤ 1 / 2 + 1 / 2 ^ 20) :
    (∀ value scale : int, 0 ≤ scale → int.inRange (value * scale) = true →
      data.pxAdjust fl qRound value scale
        = some (roundHalfTowardZero ((value : ℚ) * (scale : ℚ) / 4)))
    ∧ (∀ value : int, int.inRange (value * 4) = true →
      data.pxAdjust fl qRound value 4 = some value)
    ∧ (∀ scale : int, 0 ≤ scale → data.pxAdjust fl qRound 0 scale = some 0)
    ∧ (∀ value scale : int, 0 ≤ scale → int.inRange (value * scale) = true →
      int.inRange (-value * scale) = true →
      data.pxAdjust fl qRound (-value) scale
        = (data.pxAdjust fl qRound value scale).map (fun r => -r)) := by
  have main : ∀ value scale : int, 0 ≤ scale → int.inRange (value * scale) = true →
      data.pxAdjust fl qRound value scale
        = some (roundHalfTowardZero ((value : ℚ) * (scale : ℚ) / 4)) := by
    intro value scale hs hp
    rw [data.pxAdjust_eq fl qRound hfl hq value scale hs hp]
    push_cast
    rfl
  refine ⟨main, ?_, ?_, ?_⟩
  · intro value hp
    rw [data.pxAdjust_eq fl qRound hfl hq value 4 (by decide) hp]
    congr 1
    apply roundHalfTowardZero_quarter
    omega
  · intro scale hs
    have hp : int.inRange (0 * scale) = true := by
      rw [zero_mul]
      decide
    rw [main 0 scale hs hp]
    congr 1
    rw [Int.cast_zero, zero_mul, zero_div]
    exact roundHalfTowardZero_zero
  · intro value scale hs hp hn
    rw [main value scale hs hp, main (-value) scale hs hn, Option.map_some']
    congr 1
    rw [← roundHalfTowardZero_neg]
    congr 1
    push_cast
    ring

/-- The theorem C11 at the binary64 rounding and the qRound of Qt, on 3 and 6
(4.5, a tie, gives 4), 7 and 4, 0 and 5, -3 and 6. -/
theorem C11_pxAdjust_rounds_quarter_half_toward_zero_witness :
    (∀ x : ℚ, |double.round x - x| ≤ |x| / 2 ^ 53)
    ∧ (∀ d : ℚ, |d| ≤ 2 ^ 30 →
        |(qRound double.round d : ℚ) - d| ≤ 1 / 2 + 1 / 2 ^ 20)
    ∧ data.pxAdjust double.round (qRound double.round) 3 6
        = some (roundHalfTowardZero ((3 : ℚ) * 6 / 4))
    ∧ roundHalfTowardZero ((3 : ℚ) * 6 / 4) = 4
    ∧ data.pxAdjust double.round (qRound double.round) 7 4 = some 7
    ∧ data.pxAdjust double.round (qRound double.round) 0 5 = some 0
    ∧ data.pxAdjust double.round (qRound double.round) (-3) 6
        = (data.pxAdjust double.round (qRound double.round) 3 6).map (fun r => -r) := by
  have h := C11_pxAdjust_rounds_quarter_half_toward_zero double.round (qRound double.round)
    double.round_error (qRound_error double.round double.round_error)
  refine ⟨double.round_error, qRound_error double.round double.round_error, ?_, ?_,
    h.2.1 7 (by decide), h.2.2.1 5 (by decide),
    h.2.2.2 3 6 (by decide) (by decide) (by decide)⟩
  · have h1 := h.1 3 6 (by decide) (by decide)
    norm_num at h1 ⊢
    exact h1
  · have e : ((3 : ℚ) * 6 / 4) = ((18 : Int) : ℚ) / 4 := by norm_num
    rw [e]
    exact roundHalfTowardZero_quarter 18 4 (Or.inl ⟨by decide, by decide, by decide⟩)

end codegen.style

/-! ## Theorems on the profile screen -/

namespace Info.Profile

/-- The code units of the literal https://. -/
theorem qstr_https : qstr "https://" = [104, 116, 116, 112, 115, 58, 47, 47] := by
  decide

/-- Removing the eight leading code units of a string that starts with the
literal https:// leaves what follows it. -/
theorem QString.remove_https (rest : QString) :
    QString.remove (qstr "https://" ++ rest) 0 (QString.size (qstr "https://")) = rest := by
  rw [qstr_https]
  unfold QString.remove
  simp only [QString.size, List.length_append, List.length_cons, List.length_nil]
  rw [if_neg (by decide : ¬ ((0 : Int) < 0))]
  rw [if_neg (by omega)]
  by_cases hr : rest = []
  · subst hr
    simp
  · have hl : 0 < rest.length := List.length_pos.mpr hr
    rw [if_neg (by push_cast; omega), if_pos (by decide)]
    simp

/-- C12: the link text mapper returns, for the empty link, the empty text with
no entity; for a link that is not empty, the link without one leading https://
when it starts with it, the link itself otherwise, and one entity exactly: a
custom URL at offset 0, of the length of the returned text, whose data is the
link as given. -/
theorem C12_linkText_strips_https_and_marks_custom_url :
    DetailsFiller.setupInfo.linkText [] = ⟨[], []⟩
    ∧ (∀ link : QString, link ≠ [] →
        (∀ rest, link = qstr "https://" ++ rest →
          (DetailsFiller.setupInfo.linkText link).text = rest)
        ∧ ((¬ ∃ rest, link = qstr "https://" ++ rest) →
          (DetailsFiller.setupInfo.linkText link).text = link)
        ∧ (DetailsFiller.setupInfo.linkText link).entities
          = [⟨EntityInTextType.EntityInTextCustomUrl, 0,
              ((DetailsFiller.setupInfo.linkText link).text.length : Int), link⟩])
    ∧ DetailsFiller.setupInfo.linkText (qstr "https://t.me/x")
      = ⟨qstr "t.me/x", [⟨EntityInTextType.EntityInTextCustomUrl, 0, 6, qstr "https://t.me/x"⟩]⟩ := by
  refine ⟨rfl, fun link hne => ?_, by decide⟩
  have he : QString.isEmpty link = false := by
    cases link with
    | nil => exact absurd rfl hne
    | cons _ _ => rfl
  by_cases hs : QString.startsWith link (qstr "https://") = true
  · obtain ⟨rest, hrest⟩ : ∃ rest, link = qstr "https://" ++ rest := by
      have := List.isPrefixOf_iff_prefix.mp hs
      obtain ⟨t, ht⟩ := this
      exact ⟨t, ht.symm⟩
    have ht : (DetailsFiller.setupInfo.linkText link).text = rest := by
      simp only [DetailsFiller.setupInfo.linkText, he, hs, Bool.not_false, if_true]
      rw [hrest]
      exact QString.remove_https rest
    refine ⟨fun rest' h' => ?_, fun hno => absurd ⟨rest, hrest⟩ hno, ?_⟩
    · rw [ht]
      rw [hrest] at h'
      exact List.append_cancel_left h'
    · simp only [DetailsFiller.setupInfo.linkText, he, hs, Bool.not_false, if_true,
        List.nil_append, QString.size]
  · have hs' : QString.startsWith link (qstr "https://") = false := by
      simpa using hs
    have ht : (DetailsFiller.setupInfo.linkText link).text = link := by
      simp [DetailsFiller.setupInfo.linkText, he, hs']
    refine ⟨fun rest h' => ?_, fun _ => ht, ?_⟩
    · exfalso
      apply hs
      rw [h']
      exact List.isPrefixOf_iff_prefix.mpr ⟨rest, rfl⟩
    · simp [DetailsFiller.setupInfo.linkText, he, hs', QString.size]

/-- The loop of findBotCommand falls through to the empty string when no
command of the list compares equal to the query. -/
theorem findBotCommand_loop_no_match
    (compare : QString → QString → Qt.CaseSensitivity → Int) (command : QString)
    (l : List BotCommand)
    (h : ∀ x ∈ l, compare x.command command Qt.CaseSensitivity.CaseInsensitive ≠ 0) :
    ActionsFiller.addBotCommandActions.findBotCommand.loop compare command l = [] := by
  induction l with
  | nil => rfl
  | cons x rest ih =>
    have hx := h x (List.mem_cons_self x rest)
    simp only [ActionsFiller.addBotCommandActions.findBotCommand.loop, beq_iff_eq, hx,
      if_false]
    exact ih (fun y hy => h y (List.mem_cons_of_mem x hy))

/-- The loop of findBotCommand returns the first command of the list that
compares equal to the query, as it is stored. -/
theorem findBotCommand_loop_first_match
    (compare : QString → QString → Qt.CaseSensitivity → Int) (command : QString)
    (pre : List BotCommand) (d : BotCommand) (post : List BotCommand)
    (hpre : ∀ x ∈ pre, compare x.command command Qt.CaseSensitivity.CaseInsensitive ≠ 0)
    (hd : compare d.command command Qt.CaseSensitivity.CaseInsensitive = 0) :
    ActionsFiller.addBotCommandActions.findBotCommand.loop compare command (pre ++ d :: post)
      = d.command := by
  induction pre with
  | nil =>
    simp only [List.nil_append, ActionsFiller.addBotCommandActions.findBotCommand.loop,
      beq_iff_eq, hd, if_true]
  | cons x rest ih =>
    have hx := hpre x (List.mem_cons_self x rest)
    simp only [List.cons_append, ActionsFiller.addBotCommandActions.findBotCommand.loop,
      beq_iff_eq, hx, if_false]
    exact ih (fun y hy => hpre y (List.mem_cons_of_mem x hy))

/-- On a bot whose commands are start, Help and help, the query HELP finds Help
and sends /Help after showing the history. -/
theorem findBotCommand_example :
    ActionsFiller.addBotCommandActions.findBotCommand QString.compare
        ⟨some ⟨[⟨qstr "start", []⟩, ⟨qstr "Help", []⟩, ⟨qstr "help", []⟩]⟩⟩ (qstr "HELP")
      = qstr "Help"
    ∧ ActionsFiller.addBotCommandActions.sendBotCommand QString.compare
        ⟨some ⟨[⟨qstr "start", []⟩, ⟨qstr "Help", []⟩, ⟨qstr "help", []⟩]⟩⟩ (qstr "HELP")
      = [Call.showPeerHistory
          ⟨some ⟨[⟨qstr "start", []⟩, ⟨qstr "Help", []⟩, ⟨qstr "help", []⟩]⟩⟩
          MsgId.ShowAtTheEndMsgId,
        Call.sendBotCommand
          ⟨some ⟨[⟨qstr "start", []⟩, ⟨qstr "Help", []⟩, ⟨qstr "help", []⟩]⟩⟩
          ⟨some ⟨[⟨qstr "start", []⟩, ⟨qstr "Help", []⟩, ⟨qstr "help", []⟩]⟩⟩
          (qstr "/Help")] := by
  decide

/-- C13, as stated, fails: on a bot whose one stored command is the empty
string, the empty query equals that command, and findBotCommand returns it, but
sendBotCommand, testing the result for emptiness, makes no call instead of
sending the slash followed by the stored command. -/
theorem C13_empty_command_matched_and_nothing_sent :
    QString.compare [] [] Qt.CaseSensitivity.CaseInsensitive = 0
    ∧ ActionsFiller.addBotCommandActions.findBotCommand QString.compare
        ⟨some ⟨[⟨[], []⟩]⟩⟩ [] = []
    ∧ ActionsFiller.addBotCommandActions.sendBotCommand QString.compare
        ⟨some ⟨[⟨[], []⟩]⟩⟩ [] = []
    ∧ ActionsFiller.addBotCommandActions.sendBotCommand QString.compare
        ⟨some ⟨[⟨[], []⟩]⟩⟩ []
      ≠ [Call.showPeerHistory ⟨some ⟨[⟨[], []⟩]⟩⟩ MsgId.ShowAtTheEndMsgId,
        Call.sendBotCommand ⟨some ⟨[⟨[], []⟩]⟩⟩ ⟨some ⟨[⟨[], []⟩]⟩⟩ ('/'.toNat :: [])] := by
  decide

/-- C13, amended: findBotCommand returns the empty string when the user has no
botInfo or no stored command equals the query case-insensitively, and
otherwise the first command in list order that does, in its stored casing;
sendBotCommand makes no call when findBotCommand returns the empty string
(nothing matches, or the command matched is itself empty) and otherwise shows
the history and sends the slash followed by that stored command, which is the
case of every match of a query that is not empty, equal strings being empty
together. -/
theorem C13_findBotCommand_first_match_and_sendBotCommand
    (compare : QString → QString → Qt.CaseSensitivity → Int) (user : UserData)
    (query : QString) :
    (user.botInfo = none →
      ActionsFiller.addBotCommandActions.findBotCommand compare user query = [])
    ∧ (∀ info, user.botInfo = some info →
        (∀ x ∈ info.commands,
          compare x.command query Qt.CaseSensitivity.CaseInsensitive ≠ 0) →
        ActionsFiller.addBotCommandActions.findBotCommand compare user query = [])
    ∧ (∀ info pre d post, user.botInfo = some info → info.commands = pre ++ d :: post →
        (∀ x ∈ pre, compare x.command query Qt.CaseSensitivity.CaseInsensitive ≠ 0) →
        compare d.command query Qt.CaseSensitivity.CaseInsensitive = 0 →
        ActionsFiller.addBotCommandActions.findBotCommand compare user query = d.command)
    ∧ (ActionsFiller.addBotCommandActions.findBotCommand compare user query = [] →
        ActionsFiller.addBotCommandActions.sendBotCommand compare user query = [])
    ∧ (ActionsFiller.addBotCommandActions.findBotCommand compare user query ≠ [] →
        ActionsFiller.addBotCommandActions.sendBotCommand compare user query
          = [Call.showPeerHistory user MsgId.ShowAtTheEndMsgId,
            Call.sendBotCommand user user
              ('/'.toNat
                :: ActionsFiller.addBotCommandActions.findBotCommand compare user query)])
    ∧ ((∀ a b, compare a b Qt.CaseSensitivity.CaseInsensitive = 0 → (a = [] ↔ b = [])) →
        query ≠ [] →
        ∀ info pre d post, user.botInfo = some info → info.commands = pre ++ d :: post →
        (∀ x ∈ pre, compare x.command query Qt.CaseSensitivity.CaseInsensitive ≠ 0) →
        compare d.command query Qt.CaseSensitivity.CaseInsensitive = 0 →
        ActionsFiller.addBotCommandActions.sendBotCommand compare user query
          = [Call.showPeerHistory user MsgId.ShowAtTheEndMsgId,
            Call.sendBotCommand user user ('/'.toNat :: d.command)]) := by
  have first : ∀ info pre d post, user.botInfo = some info →
      info.commands = pre ++ d :: post →
      (∀ x ∈ pre, compare x.command query Qt.CaseSensitivity.CaseInsensitive ≠ 0) →
      compare d.command query Qt.CaseSensitivity.CaseInsensitive = 0 →
      ActionsFiller.addBotCommandActions.findBotCommand compare user query = d.command := by
    intro info pre d post hi hc hpre hd
    unfold ActionsFiller.addBotCommandActions.findBotCommand
    rw [hi]
    simp only [hc]
    exact findBotCommand_loop_first_match compare query pre d post hpre hd
  have sendNonempty :
      ActionsFiller.addBotCommandActions.findBotCommand compare user query ≠ [] →
      ActionsFiller.addBotCommandActions.sendBotCommand compare user query
        = [Call.showPeerHistory user MsgId.ShowAtTheEndMsgId,
          Call.sendBotCommand user user
            ('/'.toNat
              :: ActionsFiller.addBotCommandActions.findBotCommand compare user query)] := by
    intro h
    unfold ActionsFiller.addBotCommandActions.sendBotCommand
    cases hf : ActionsFiller.addBotCommandActions.findBotCommand compare user query with
    | nil => exact absurd hf h
    | cons _ _ => rfl
  refine ⟨?_, ?_, first, ?_, sendNonempty, ?_⟩
  · intro hn
    unfold ActionsFiller.addBotCommandActions.findBotCommand
    rw [hn]
  · intro info hi hall
    unfold ActionsFiller.addBotCommandActions.findBotCommand
    rw [hi]
    exact findBotCommand_loop_no_match compare query info.commands hall
  · intro h
    unfold ActionsFiller.addBotCommandActions.sendBotCommand
    rw [h]
    rfl
  · intro hcmp hq info pre d post hi hc hpre hd
    have hfd := first info pre d post hi hc hpre hd
    have hne : d.command ≠ [] := fun he => hq ((hcmp _ _ hd).mp he)
    rw [sendNonempty (by rw [hfd]; exact hne), hfd]

end Info.Profile
